import Mathlib

/-!
Verification of the audioghost-ai job execution core.

This file is a shallow embedding of the code that the claims concern:
the Celery worker task `separate_audio_task` in `backend/workers/tasks.py`
(chunk planning, progress reporting, result assembly, output writing and
error handling), the single-slot lite-model cache `get_or_load_lite_model`
in the same file, and the two submission endpoints in
`backend/api/separate.py`.  Audio samples are modelled as exact rationals;
torch tensors are 1-D sample vectors together with a dtype tag; the
process-global caches `_model_cache` / `_processor_cache` are modelled as
association lists threaded explicitly through the cache function.
-/

/-- Torch dtype as used by the worker: `dtype = torch.bfloat16 if device ==
"cuda" else torch.float32` (bf16 on GPU, fp32 on CPU). -/
inductive Precision where
  | bf16
  | fp32
  deriving DecidableEq

/-- A torch 1-D audio tensor: a dtype tag plus the sample values.  Sample
values are embedded as exact rationals. -/
structure Tensor where
  prec : Precision
  samples : List ℚ
  deriving DecidableEq

/-! Python call binding, for the endpoint/worker signature claims.
`separate_audio_task` is declared with `bind=True`, so Celery binds `self`
and the queued argument list binds to the remaining positional
parameters. -/

/-- Positional parameters of `separate_audio_task` after the bound `self`:
`audio_path`, `description`, `mode`, `anchors`, `model_size`
(backend/workers/tasks.py lines 161-169). -/
def separate_audio_task_params : List String :=
  ["audio_path", "description", "mode", "anchors", "model_size"]

/-- Number of parameters of `separate_audio_task` without a default value
(`audio_path` and `description`). -/
def separate_audio_task_required : Nat := 2

/-- Python positional-argument binding: a call binds exactly when the number
of supplied positional arguments is at least the number of required
parameters and at most the number of declared positional parameters. -/
def accepts_call (num_params num_required num_args : Nat) : Bool :=
  num_required ≤ num_args && num_args ≤ num_params

/-- Invoking a Python function with a list of positional arguments: when the
arguments do not bind to the signature, a `TypeError` is raised before the
function body runs; otherwise the body runs. -/
def python_call {α : Type} (num_params num_required num_args : Nat)
    (body : Unit → α) : Except String α :=
  if accepts_call num_params num_required num_args then Except.ok (body ())
  else Except.error "TypeError"

/-- The eight positional arguments that the single-file endpoint
`create_separation_task` passes to `separate_audio_task.apply_async`
(backend/api/separate.py lines 91-103). -/
def single_endpoint_args : List String :=
  ["upload_path", "description", "mode", "anchors", "model_size",
   "chunk_duration", "use_float32_bool", "is_video"]

/-- The five positional arguments that the batch endpoint
`create_batch_separation` passes (backend/api/separate.py line 143). -/
def batch_endpoint_args : List String :=
  ["upload_path", "desc", "mode", "None", "small"]

/-! The single-slot model cache (`get_or_load_lite_model`).  Model and
processor handles are identifiers (`Nat`); actually loading a model is an
opaque effect, passed in as a `load` callback whose result carries the two
fresh handles. -/

/-- Result of `create_lite_model`: a model handle and a processor handle. -/
structure LoadResult where
  model : Nat
  processor : Nat
  deriving DecidableEq

/-- The process-global caches `_model_cache` and `_processor_cache`,
modelled as association lists from string keys to handles. -/
structure CacheState where
  models : List (String × Nat)
  processors : List (String × Nat)
  deriving DecidableEq

/-- The caches at process start: both module-level dicts are empty. -/
def emptyCache : CacheState := ⟨[], []⟩

/-- The string the worker computes for a dtype:
`"bf16" if dtype == torch.bfloat16 else "fp32"`. -/
def dtype_str : Precision → String
  | Precision.bf16 => "bf16"
  | Precision.fp32 => "fp32"

/-- The cache key `f"{model_name}_lite_{device}_{dtype_str}"`. -/
def cache_key (model_name device : String) (dtype : Precision) : String :=
  model_name ++ "_lite_" ++ device ++ "_" ++ dtype_str dtype

/-- Dict lookup on an association list. -/
def lookupC (l : List (String × Nat)) (k : String) : Option Nat :=
  match l.find? (fun p => p.1 == k) with
  | some p => some p.2
  | none => none

/-- `get_or_load_lite_model` (backend/workers/tasks.py lines 109-148).
On a cache hit it returns the cached model and the processor stored under
`model_name` (a missing processor entry would be a `KeyError`, modelled as
`none`) and performs no load.  On a miss it first deletes every entry of
both `_model_cache` and `_processor_cache`, then loads, moves the model to
the device/dtype and stores the model under the cache key and the
processor under `model_name`.  The returned `Bool` records whether
`create_lite_model` was invoked (a reload). -/
def get_or_load_lite_model (load : Unit → LoadResult) (model_name device : String)
    (dtype : Precision) (st : CacheState) :
    CacheState × Option (Nat × Nat) × Bool :=
  let key := cache_key model_name device dtype
  match lookupC st.models key with
  | some m =>
      (st, (lookupC st.processors model_name).map (fun p => (m, p)), false)
  | none =>
      let r := load ()
      (⟨[(key, r.model)], [(model_name, r.processor)]⟩,
       some (r.model, r.processor), true)

/-- One acquire request against the cache: the loader callback and the
`(model_name, device, dtype)` key data. -/
structure AcquireRequest where
  load : Unit → LoadResult
  model_name : String
  device : String
  dtype : Precision

/-- The state transition a single request performs on the caches. -/
def acquire_step (st : CacheState) (r : AcquireRequest) : CacheState :=
  (get_or_load_lite_model r.load r.model_name r.device r.dtype st).1

/-- The cache state after a sequence of acquire requests, starting from the
empty caches the process begins with. -/
def run_requests (reqs : List AcquireRequest) : CacheState :=
  reqs.foldl acquire_step emptyCache

/-! Chunk planning.  The worker hard-codes the chunk duration and splits
the waveform with `torch.split`. -/

/-- The constant `CHUNK_DURATION = 25.0` in `separate_audio_task`
(backend/workers/tasks.py line 239): 25 seconds per chunk. -/
def CHUNK_DURATION : ℚ := 25

/-- `MAX_CHUNK_SAMPLES = int(sample_rate * CHUNK_DURATION)`; since
`CHUNK_DURATION` is exactly 25.0 this is `sample_rate * 25`. -/
def MAX_CHUNK_SAMPLES (sample_rate : Nat) : Nat := sample_rate * 25

/-- The endpoint validation `chunk_duration = max(5.0, min(60.0,
chunk_duration))` (backend/api/separate.py line 62). -/
def clamp_chunk_duration (d : ℚ) : ℚ := max 5 (min 60 d)

/-- Fuel-indexed core of `torch.split`: peel off `n`-sample segments from
the front.  The fuel only serves structural termination; it is set to the
list length, which bounds the number of produced segments. -/
def torchSplitAux {α : Type} (n : Nat) : Nat → List α → List (List α)
  | _, [] => []
  | 0, a :: l => [a :: l]
  | fuel + 1, a :: l => (a :: l).take n :: torchSplitAux n fuel ((a :: l).drop n)

/-- `torch.split(tensor, n, dim=-1)`: consecutive segments of `n` samples,
the last segment possibly shorter. -/
def torchSplit {α : Type} (n : Nat) (l : List α) : List (List α) :=
  torchSplitAux n l.length l

/-- The chunks the worker keeps: the per-chunk loop skips any chunk with
`chunk.shape[-1] < sample_rate` (less than 1 second). -/
def kept_chunks (sample_rate : Nat) (cs : List (List ℚ)) : List (List ℚ) :=
  cs.filter fun c => decide (sample_rate ≤ c.length)

/-- The chunks the worker discards as too short to separate. -/
def discarded_chunks (sample_rate : Nat) (cs : List (List ℚ)) : List (List ℚ) :=
  cs.filter fun c => decide (c.length < sample_rate)

/-! Progress reporting.  `update_progress` is called with the literal
percentages 5, 10, 30, the per-chunk value, 80 and 100; the single-batch
branch additionally emits 50. -/

/-- The per-chunk progress value `30 + int((i / total_chunks) * 50)`
(backend/workers/tasks.py line 256), in exact arithmetic
`30 + (50 * i) divided by total_chunks, rounded down`. -/
def chunk_progress (total_chunks i : Nat) : Nat := 30 + i * 50 / total_chunks

/-- The sequence of progress percentages one run of `separate_audio_task`
emits, in order: 5 (initializing), 10 (loading model), 30 (loading audio),
then either one per-chunk value for every chunk (including skipped short
chunks, whose update precedes the skip) when the audio is longer than
`MAX_CHUNK_SAMPLES`, or the single value 50 (running separation) otherwise,
then 80 (saving) and 100 (complete). -/
def progress_trace (sample_rate : Nat) (audio : List ℚ) : List Nat :=
  if MAX_CHUNK_SAMPLES sample_rate < audio.length then
    let total := (torchSplit (MAX_CHUNK_SAMPLES sample_rate) audio).length
    [5, 10, 30] ++ (List.range total).map (chunk_progress total) ++ [80, 100]
  else
    [5, 10, 30, 50, 80, 100]

/-! Result assembly.  The chunked branch concatenates the per-chunk outputs,
clamps and upcasts; the single-batch branch only upcasts. -/

/-- `x.clamp(-1, 1)` on a single sample. -/
def clamp_sample (x : ℚ) : ℚ := max (-1) (min 1 x)

/-- `torch.cat(ts, dim=-1)` over same-dtype segment tensors. -/
def tcat (p : Precision) (segs : List (List ℚ)) : Tensor := ⟨p, segs.flatten⟩

/-- `t.clamp(-1, 1)` on a tensor. -/
def tclamp (t : Tensor) : Tensor := ⟨t.prec, t.samples.map clamp_sample⟩

/-- `t.float()`: upcast to float32, keeping the sample values. -/
def tfloat (t : Tensor) : Tensor := ⟨Precision.fp32, t.samples⟩

/-- Chunked-branch target assembly
`torch.cat(out_target, dim=-1).clamp(-1, 1).float()`
(backend/workers/tasks.py line 288). -/
def target_audio_chunked (p : Precision) (out_target : List (List ℚ)) : Tensor :=
  tfloat (tclamp (tcat p out_target))

/-- Chunked-branch residual assembly, same pipeline (line 289). -/
def residual_audio_chunked (p : Precision) (out_residual : List (List ℚ)) : Tensor :=
  tfloat (tclamp (tcat p out_residual))

/-- Single-batch target `result.target[0].float()` (line 313): upcast with
no clamping. -/
def target_audio_single (t : Tensor) : Tensor := tfloat t

/-- Single-batch residual `result.residual[0].float()` (line 314). -/
def residual_audio_single (t : Tensor) : Tensor := tfloat t

/-! Output writing.  The three artifacts are written one after the other;
the mode-conditional at lines 330-335 has identical branches. -/

/-- Existence of the three output files of one job at one observable point. -/
structure FsState where
  originalExists : Bool
  ghostExists : Bool
  cleanExists : Bool
  deriving DecidableEq

/-- `output_base = OUTPUT_DIR / task_id` (task ids are uuids, so
`with_suffix` appends). -/
def output_base (task_id : String) : String := "outputs/" ++ task_id

/-- Path of the original artifact. -/
def original_path (task_id : String) : String := output_base task_id ++ ".original.wav"

/-- Path of the ghost (target) artifact. -/
def ghost_path (task_id : String) : String := output_base task_id ++ ".ghost.wav"

/-- Path of the clean (residual) artifact. -/
def clean_path (task_id : String) : String := output_base task_id ++ ".clean.wav"

/-- The dictionary `separate_audio_task` returns on success
(backend/workers/tasks.py lines 353-362), restricted to the fields the
claims concern. -/
structure JobResult where
  original : String
  ghost : String
  clean : String
  description : String
  mode : String
  model_size : String
  deriving DecidableEq

/-- The saving stage (backend/workers/tasks.py lines 320-337): write the
original file, then the ghost file, then the clean file, in that order.
Each `fail_*` flag injects a write failure at the corresponding
`torchaudio.save`; a failing write raises, so later writes do not run and
no result is produced.  The first component lists the file-system states at
every observable point (before any write and after each completed step);
the second is the returned descriptor, produced only when all three writes
succeeded. -/
def save_results (task_id description mode model_size : String)
    (fail_original fail_ghost fail_clean : Bool) :
    List FsState × Option JobResult :=
  let s0 : FsState := ⟨false, false, false⟩
  if fail_original then ([s0], none)
  else
    let s1 : FsState := ⟨true, false, false⟩
    if fail_ghost then ([s0, s1], none)
    else
      let s2 : FsState := ⟨true, true, false⟩
      if fail_clean then ([s0, s1, s2], none)
      else
        ([s0, s1, s2, ⟨true, true, true⟩],
         some ⟨original_path task_id, ghost_path task_id, clean_path task_id,
               description, mode, model_size⟩)

/-- The mode conditional at backend/workers/tasks.py lines 330-335: which
tensor is saved to which path.  Both branches are literally identical. -/
def save_separated (mode : String) (ghostPath cleanPath : String)
    (target_audio residual_audio : Tensor) : List (String × Tensor) :=
  if mode = "extract" then
    [(ghostPath, target_audio), (cleanPath, residual_audio)]
  else
    [(ghostPath, target_audio), (cleanPath, residual_audio)]

/-! Error handling.  The whole task body sits in a single
`try ... except Exception as e` whose handler frees memory and re-raises
one wrapped exception. -/

/-- The wrapped message `f"Separation failed: {str(e)}"`
(backend/workers/tasks.py line 368). -/
def wrap_error (cause : String) : String := "Separation failed: " ++ cause

/-- The Celery task status resulting from a task body: a raised exception
settles the task in the terminal FAILURE state. -/
def celery_state {α : Type} (r : Except String α) : String :=
  match r with
  | Except.ok _ => "SUCCESS"
  | Except.error _ => "FAILURE"

/-- The `try/except` wrapper of `separate_audio_task` (lines 195 and
365-368): a successful body passes through (the success path also runs
`cleanup_gpu_memory`, line 344); a raised error first runs `gc.collect()`
and `cleanup_gpu_memory()` and then raises exactly one wrapped exception.
The `Bool` records that device memory was released. -/
def separate_audio_task_run {α : Type} (body : Except String α) :
    Except String α × Bool :=
  match body with
  | Except.ok v => (Except.ok v, true)
  | Except.error e => (Except.error (wrap_error e), true)

/-- Character-list equality test of a candidate beginning. -/
def charPrefixEq : List Char → List Char → Bool
  | [], _ => true
  | _ :: _, [] => false
  | a :: as, b :: bs => a == b && charPrefixEq as bs

/-- Substring test: the needle occurs contiguously in the haystack. -/
def containsSub (needle haystack : List Char) : Bool :=
  (List.range (haystack.length + 1)).any fun i => charPrefixEq needle (haystack.drop i)

/-! Helper lemmas about the torch.split embedding. -/

/-- Splitting the empty waveform produces no chunks. -/
theorem torchSplitAux_nil {α : Type} (n fuel : Nat) :
    torchSplitAux n fuel ([] : List α) = [] := by
  cases fuel <;> rfl

/-- Splitting a nonempty waveform produces at least one chunk. -/
theorem torchSplitAux_ne_nil {α : Type} (n fuel : Nat) (a : α) (l : List α) :
    torchSplitAux n fuel (a :: l) ≠ [] := by
  cases fuel <;> simp [torchSplitAux]

/-- Concatenating the chunks recovers the waveform. -/
theorem torchSplitAux_flatten {α : Type} (n : Nat) (fuel : Nat) (l : List α) :
    (torchSplitAux n fuel l).flatten = l := by
  induction fuel generalizing l with
  | zero => cases l <;> simp [torchSplitAux]
  | succ f ih =>
    cases l with
    | nil => simp [torchSplitAux]
    | cons a t => simp [torchSplitAux, ih, List.take_append_drop]

/-- Every chunk is at most `n` samples long. -/
theorem torchSplitAux_length_le {α : Type} (n fuel : Nat) (hn : 0 < n)
    (l : List α) (hf : l.length ≤ fuel) :
    ∀ c ∈ torchSplitAux n fuel l, c.length ≤ n := by
  induction fuel generalizing l with
  | zero =>
    have hl : l = [] := List.length_eq_zero.1 (Nat.le_zero.1 hf)
    subst hl; simp [torchSplitAux]
  | succ f ih =>
    cases l with
    | nil => simp [torchSplitAux]
    | cons a t =>
      intro c hc
      simp only [torchSplitAux, List.mem_cons] at hc
      rcases hc with rfl | hc
      · simp only [List.length_take]
        exact Nat.min_le_left n (a :: t).length
      · refine ih ((a :: t).drop n) ?_ c hc
        simp only [List.length_drop, List.length_cons] at hf ⊢
        omega

/-- Every chunk except possibly the last is exactly `n` samples long. -/
theorem torchSplitAux_dropLast {α : Type} (n fuel : Nat) (hn : 0 < n)
    (l : List α) (hf : l.length ≤ fuel) :
    ∀ c ∈ (torchSplitAux n fuel l).dropLast, c.length = n := by
  induction fuel generalizing l with
  | zero =>
    have hl : l = [] := List.length_eq_zero.1 (Nat.le_zero.1 hf)
    subst hl; simp [torchSplitAux]
  | succ f ih =>
    cases l with
    | nil => simp [torchSplitAux]
    | cons a t =>
      show ∀ c ∈ ((a :: t).take n :: torchSplitAux n f ((a :: t).drop n)).dropLast,
        c.length = n
      rcases hd : (a :: t).drop n with _ | ⟨b, t2⟩
      · simp [torchSplitAux_nil]
      · rw [List.dropLast_cons_of_ne_nil (hd ▸ torchSplitAux_ne_nil n f b t2)]
        intro c hc
        rcases List.mem_cons.1 hc with rfl | hc
        · have hlen : n < (a :: t).length := by
            by_contra hcon
            have : (a :: t).drop n = [] := List.drop_eq_nil_of_le (by omega)
            simp [this] at hd
          simp only [List.length_take, List.length_cons] at hlen ⊢
          omega
        · have hrec := ih ((a :: t).drop n)
            (by simp only [List.length_drop, List.length_cons] at hf ⊢; omega) c
          rw [hd] at hrec
          exact hrec hc

/-- Chunk lengths of the kept chunks plus those of the discarded chunks sum
to the total chunk length. -/
theorem kept_discarded_sum (sample_rate : Nat) (cs : List (List ℚ)) :
    ((kept_chunks sample_rate cs).map List.length).sum
      + ((discarded_chunks sample_rate cs).map List.length).sum
      = (cs.map List.length).sum := by
  induction cs with
  | nil => simp [kept_chunks, discarded_chunks]
  | cons c cs ih =>
    by_cases h : sample_rate ≤ c.length
    · simp only [kept_chunks, discarded_chunks, List.filter_cons] at *
      simp [h, Nat.not_lt.2 h] at *
      omega
    · simp only [kept_chunks, discarded_chunks, List.filter_cons] at *
      simp [h, Nat.lt_of_not_le h] at *
      omega

/-! Claim theorems. -/

/-- C1: every job submitted through the single-file separation endpoint
enqueues a worker invocation that fails with an argument-count `TypeError`
before the task body (any separation work) runs, because the endpoint
passes eight positional arguments to `separate_audio_task`, whose signature
accepts only five; the batch endpoint passes five arguments, which bind. -/
theorem c1_single_endpoint_arity_mismatch :
    ∀ (α : Type) (body : Unit → α),
      single_endpoint_args.length = 8 ∧
      separate_audio_task_params.length = 5 ∧
      python_call separate_audio_task_params.length separate_audio_task_required
        single_endpoint_args.length body = Except.error "TypeError" ∧
      batch_endpoint_args.length = 5 ∧
      python_call separate_audio_task_params.length separate_audio_task_required
        batch_endpoint_args.length body = Except.ok (body ()) := by
  intro α body
  refine ⟨rfl, rfl, rfl, rfl, rfl⟩

/-- C3: the claim says the chunk planner uses the job's submitted
`chunk_duration` (clamped to 5-60 s, default 25 s) times the sample rate as
the segment length.  The code does not: the endpoint clamps and forwards
`chunk_duration`, but the worker signature never receives it
(see C1) and the worker hard-codes `CHUNK_DURATION = 25.0`, so the segment
length is always `25 * sample_rate`.  Evaluating at the failing input
`chunk_duration = 5`, `sample_rate = 16000`: the worker uses 400000-sample
segments, while the claim demands 80000-sample segments. -/
theorem c3_chunk_duration_ignored :
    (∀ sample_rate : Nat, MAX_CHUNK_SAMPLES sample_rate = 25 * sample_rate) ∧
    MAX_CHUNK_SAMPLES 16000 = 400000 ∧
    clamp_chunk_duration 5 = 5 ∧
    clamp_chunk_duration 5 * 16000 = 80000 ∧
    (400000 : ℕ) ≠ 80000 := by
  refine ⟨fun sr => Nat.mul_comm sr 25, rfl, ?_, ?_, by decide⟩
  · unfold clamp_chunk_duration
    rw [min_eq_right (by norm_num), max_self]
  · unfold clamp_chunk_duration
    rw [min_eq_right (by norm_num), max_self]
    norm_num

/-- C8: the mode field does not change which tensor is written where: for
all inputs, running the saving stage with `mode = "extract"` and with
`mode = "remove"` (indeed with any two modes) writes the same files — the
model target to the ghost path and the model residual to the clean path. -/
theorem c8_mode_does_not_change_outputs :
    ∀ (ghostPath cleanPath : String) (target_audio residual_audio : Tensor),
      save_separated "extract" ghostPath cleanPath target_audio residual_audio
        = save_separated "remove" ghostPath cleanPath target_audio residual_audio ∧
      save_separated "extract" ghostPath cleanPath target_audio residual_audio
        = [(ghostPath, target_audio), (cleanPath, residual_audio)] ∧
      ∀ mode mode' : String,
        save_separated mode ghostPath cleanPath target_audio residual_audio
          = save_separated mode' ghostPath cleanPath target_audio residual_audio := by
  intro ghostPath cleanPath target_audio residual_audio
  refine ⟨rfl, rfl, fun mode mode' => ?_⟩
  unfold save_separated
  split <;> split <;> rfl

/-- C7 counterexample: the claim requires the wrapped error message to
include the job id and the name of the failed stage.  At the concrete
failing run whose cause is the missing-token error raised by the code
itself, with job id `1a2b3c4d` and stage `loading_model`, the propagated
message is `Separation failed: <cause>` and contains neither the job id
nor the stage name. -/
theorem c7_counterexample_no_id_no_stage :
    (separate_audio_task_run
        (Except.error "HuggingFace token not found. Please authenticate first."
          : Except String Unit)).1
      = Except.error
          "Separation failed: HuggingFace token not found. Please authenticate first." ∧
    containsSub "1a2b3c4d".toList
      "Separation failed: HuggingFace token not found. Please authenticate first.".toList
      = false ∧
    containsSub "loading_model".toList
      "Separation failed: HuggingFace token not found. Please authenticate first.".toList
      = false := by
  refine ⟨rfl, by decide, by decide⟩

/-- C7 amended: whenever any stage of the separation task raises, the task
releases device memory, settles in the terminal FAILURE state and
propagates exactly one wrapped error, whose message is the fixed text
`Separation failed: ` followed by the cause; the job id and the stage name
are not part of the message.  A successful body is passed through
unchanged (memory is cleaned up there too). -/
theorem c7_error_wrapping :
    ∀ (α : Type) (cause : String) (v : α),
      separate_audio_task_run (Except.error cause : Except String α)
        = (Except.error ("Separation failed: " ++ cause), true) ∧
      celery_state (separate_audio_task_run (Except.error cause : Except String α)).1
        = "FAILURE" ∧
      separate_audio_task_run (Except.ok v : Except String α) = (Except.ok v, true) ∧
      containsSub cause.toList (wrap_error cause).toList = true := by
  intro α cause v
  refine ⟨rfl, rfl, rfl, ?_⟩
  have hkey : ("Separation failed: " ++ cause).toList
      = "Separation failed: ".toList ++ cause.toList := by
    simp [String.toList, String.data_append]
  unfold containsSub wrap_error
  rw [List.any_eq_true]
  refine ⟨"Separation failed: ".toList.length, ?_, ?_⟩
  · rw [List.mem_range, hkey, List.length_append]
    omega
  · rw [hkey, List.drop_left]
    have : ∀ l : List Char, charPrefixEq l l = true := by
      intro l
      induction l with
      | nil => rfl
      | cons a as ih => simp [charPrefixEq, ih]
    exact this cause.toList

/-- C5 counterexample: the claim requires that at every observable point the
ghost file and the clean file either both exist or neither exists.  In the
concrete run where the clean write fails after the ghost write succeeded,
the task returns no result and its final observable file-system state has
the ghost file present and the clean file absent; even in the fully
successful run the trace passes through that lopsided state between the
two writes. -/
theorem c5_counterexample_ghost_without_clean :
    (save_results "t1" "piano" "extract" "base" false false true).2 = none ∧
    (save_results "t1" "piano" "extract" "base" false false true).1.getLast?
      = some ⟨true, true, false⟩ ∧
    (FsState.mk true true false).ghostExists = true ∧
    (FsState.mk true true false).cleanExists = false ∧
    FsState.mk true true false ∈ (save_results "t1" "piano" "extract" "base"
      false false false).1 := by
  refine ⟨rfl, rfl, rfl, rfl, by decide⟩

/-- C5 amended: a `JobResult` descriptor is returned exactly when the
original, ghost and clean writes all succeeded, and then all three files
exist; but the ghost and clean writes are sequential rather than atomic,
so there is an observable point with the ghost file present and the clean
file absent — permanently so when the clean write fails after the ghost
write. -/
theorem c5_result_only_after_all_writes :
    ∀ (task_id description mode model_size : String)
      (fail_original fail_ghost fail_clean : Bool),
      ((save_results task_id description mode model_size
          fail_original fail_ghost fail_clean).2.isSome
        ↔ (fail_original = false ∧ fail_ghost = false ∧ fail_clean = false)) ∧
      (save_results task_id description mode model_size false false false).1.getLast?
        = some ⟨true, true, true⟩ ∧
      (save_results task_id description mode model_size false false false).2
        = some ⟨original_path task_id, ghost_path task_id, clean_path task_id,
                description, mode, model_size⟩ ∧
      (save_results task_id description mode model_size false false true).1.getLast?
        = some ⟨true, true, false⟩ := by
  intro task_id description mode model_size fO fG fC
  refine ⟨?_, rfl, rfl, rfl⟩
  cases fO <;> cases fG <;> cases fC <;> simp [save_results]

/-- C6 counterexample: the claim says both the chunked path and the
single-batch path clamp samples to [-1, 1].  The single-batch path does
not: a model output sample of 3/2 is written unchanged (only upcast),
while the chunked path would clamp the same sample to 1. -/
theorem c6_counterexample_single_batch_unclamped :
    (target_audio_single ⟨Precision.bf16, [3/2]⟩).samples = [3/2] ∧
    ¬((3 : ℚ)/2 ≤ 1) ∧
    (target_audio_chunked Precision.bf16 [[3/2]]).samples = [1] := by
  refine ⟨rfl, by norm_num, ?_⟩
  show List.map clamp_sample [3/2] = [1]
  simp [clamp_sample]
  rw [min_eq_left (by norm_num), max_eq_right (by norm_num)]

/-- C6 amended: both assembly paths upcast to full float32 precision before
writing, and the chunked path clamps every concatenated target and
residual sample into [-1, 1]; the single-batch path writes the model
samples unclamped. -/
theorem c6_clamp_and_upcast :
    ∀ (p : Precision) (segs : List (List ℚ)) (t : Tensor),
      (target_audio_chunked p segs).prec = Precision.fp32 ∧
      ((target_audio_chunked p segs).samples.all
        fun x => decide (-1 ≤ x) && decide (x ≤ 1)) = true ∧
      (residual_audio_chunked p segs).prec = Precision.fp32 ∧
      ((residual_audio_chunked p segs).samples.all
        fun x => decide (-1 ≤ x) && decide (x ≤ 1)) = true ∧
      (target_audio_single t).prec = Precision.fp32 ∧
      (target_audio_single t).samples = t.samples ∧
      (residual_audio_single t).prec = Precision.fp32 ∧
      (residual_audio_single t).samples = t.samples := by
  intro p segs t
  have hall : ((tfloat (tclamp (tcat p segs))).samples.all
      fun x => decide (-1 ≤ x) && decide (x ≤ 1)) = true := by
    rw [List.all_eq_true]
    intro x hx
    simp only [tfloat, tclamp, tcat, List.mem_map] at hx
    obtain ⟨y, _, rfl⟩ := hx
    have h1 : -1 ≤ clamp_sample y := le_max_left _ _
    have h2 : clamp_sample y ≤ 1 :=
      max_le (by norm_num) (min_le_left _ _)
    simp [h1, h2]
  exact ⟨rfl, hall, rfl, hall, rfl, rfl, rfl, rfl⟩

/-- C9 counterexample: the claim says that for a short input the progress
jumps from the 30 percent update directly to the 80 percent update.  For
the concrete 5-sample input at 16 kHz (far below the 25-second chunk
limit) the emitted sequence is 5, 10, 30, 50, 80, 100: the single-batch
branch emits an intermediate 50 percent update between 30 and 80. -/
theorem c9_counterexample_intermediate_fifty :
    progress_trace 16000 (List.replicate 5 (0 : ℚ)) = [5, 10, 30, 50, 80, 100] ∧
    50 ∈ progress_trace 16000 (List.replicate 5 (0 : ℚ)) ∧
    progress_trace 16000 (List.replicate 5 (0 : ℚ)) ≠ [5, 10, 30, 80, 100] := by
  refine ⟨?_, ?_, ?_⟩ <;> simp [progress_trace, MAX_CHUNK_SAMPLES]

/-- C9 amended: for every input whose length does not exceed
`MAX_CHUNK_SAMPLES` the task takes the single-batch branch (no chunking)
and its reported progress sequence is 5, 10, 30, 50, 80, 100: one
intermediate 50 percent update is emitted between the 30 and 80 updates. -/
theorem c9_single_batch_progress (sample_rate : Nat) (audio : List ℚ)
    (h : audio.length ≤ MAX_CHUNK_SAMPLES sample_rate) :
    progress_trace sample_rate audio = [5, 10, 30, 50, 80, 100] := by
  unfold progress_trace
  rw [if_neg (Nat.not_lt.2 h)]

/-- C9 witness: the amended theorem applied to the concrete 5-sample
input at 16 kHz. -/
theorem c9_single_batch_progress_witness :
    progress_trace 16000 (List.replicate 5 (0 : ℚ)) = [5, 10, 30, 50, 80, 100] :=
  c9_single_batch_progress 16000 (List.replicate 5 (0 : ℚ)) (by decide)

/-! Helper lemmas for the single-slot cache. -/

/-- Looking up the only key of a singleton cache succeeds. -/
theorem lookupC_singleton (k : String) (v : Nat) : lookupC [(k, v)] k = some v := by
  unfold lookupC
  rw [List.find?_cons_of_pos _ (by simp)]

/-- One acquire against caches holding at most the single reachable slot
leaves exactly one model entry and one processor entry. -/
theorem acquire_one_slot (load : Unit → LoadResult) (model_name device : String)
    (dtype : Precision) (st : CacheState)
    (h : (st.models.length = 1 ∧ st.processors.length = 1) ∨ st = emptyCache) :
    (get_or_load_lite_model load model_name device dtype st).1.models.length = 1 ∧
    (get_or_load_lite_model load model_name device dtype st).1.processors.length = 1 := by
  rcases h with ⟨h1, h2⟩ | rfl
  · cases hk : lookupC st.models (cache_key model_name device dtype) with
    | none => simp [get_or_load_lite_model, hk]
    | some m => simp [get_or_load_lite_model, hk, h1, h2]
  · simp [get_or_load_lite_model, emptyCache, lookupC]

/-- Folding further acquires over a one-slot cache state keeps exactly one
slot. -/
theorem run_requests_preserve (reqs : List AcquireRequest) :
    ∀ st : CacheState, st.models.length = 1 ∧ st.processors.length = 1 →
      (reqs.foldl acquire_step st).models.length = 1 ∧
      (reqs.foldl acquire_step st).processors.length = 1 := by
  induction reqs with
  | nil => intro st h; simpa using h
  | cons r rs ih =>
    intro st h
    simp only [List.foldl_cons]
    exact ih _ (acquire_one_slot r.load r.model_name r.device r.dtype st (Or.inl h))

/-- C2: the model cache keeps at most one slot.  Calling
`get_or_load_lite_model` twice with the same `(model_name, device, dtype)`
key returns the same model/processor handles the first call returned,
reloads nothing and leaves the caches unchanged; a call whose key misses
first removes every previously cached model and processor and then stores
exactly the one new slot; and starting from the empty process-start caches,
after any nonempty sequence of acquires exactly one model entry and one
processor entry exist, so no two slots ever coexist. -/
theorem c2_single_slot_cache (load load2 : Unit → LoadResult)
    (model_name device : String) (dtype : Precision) (st : CacheState) :
    ((get_or_load_lite_model load2 model_name device dtype
        (get_or_load_lite_model load model_name device dtype st).1).1
      = (get_or_load_lite_model load model_name device dtype st).1 ∧
     (get_or_load_lite_model load2 model_name device dtype
        (get_or_load_lite_model load model_name device dtype st).1).2.1
      = (get_or_load_lite_model load model_name device dtype st).2.1 ∧
     (get_or_load_lite_model load2 model_name device dtype
        (get_or_load_lite_model load model_name device dtype st).1).2.2 = false) ∧
    (lookupC st.models (cache_key model_name device dtype) = none →
      get_or_load_lite_model load model_name device dtype st
        = (⟨[(cache_key model_name device dtype, (load ()).model)],
            [(model_name, (load ()).processor)]⟩,
           some ((load ()).model, (load ()).processor), true)) ∧
    (∀ reqs : List AcquireRequest, reqs ≠ [] →
      (run_requests reqs).models.length = 1 ∧
      (run_requests reqs).processors.length = 1) := by
  refine ⟨?_, ?_, ?_⟩
  · cases hk : lookupC st.models (cache_key model_name device dtype) with
    | some m =>
      have e1 : get_or_load_lite_model load model_name device dtype st
          = (st, (lookupC st.processors model_name).map (fun p => (m, p)), false) := by
        simp [get_or_load_lite_model, hk]
      rw [e1]
      simp [get_or_load_lite_model, hk]
    | none =>
      have e1 : get_or_load_lite_model load model_name device dtype st
          = (⟨[(cache_key model_name device dtype, (load ()).model)],
              [(model_name, (load ()).processor)]⟩,
             some ((load ()).model, (load ()).processor), true) := by
        simp [get_or_load_lite_model, hk]
      rw [e1]
      simp [get_or_load_lite_model, lookupC_singleton]
  · intro h
    simp [get_or_load_lite_model, h]
  · intro reqs hne
    obtain ⟨r, rs, rfl⟩ := List.exists_cons_of_ne_nil hne
    unfold run_requests
    simp only [List.foldl_cons]
    exact run_requests_preserve rs _
      (acquire_one_slot r.load r.model_name r.device r.dtype emptyCache (Or.inr rfl))

/-- C2 witness: acquiring the base model on the empty process-start caches
loads it and stores exactly one slot; the one-request sequence leaves one
model entry. -/
theorem c2_single_slot_cache_witness :
    get_or_load_lite_model (fun _ => ⟨1, 2⟩) "facebook/sam-audio-base" "cuda"
        Precision.bf16 emptyCache
      = (⟨[(cache_key "facebook/sam-audio-base" "cuda" Precision.bf16, 1)],
          [("facebook/sam-audio-base", 2)]⟩, some (1, 2), true) ∧
    (run_requests [⟨fun _ => ⟨1, 2⟩, "facebook/sam-audio-base", "cuda",
        Precision.bf16⟩]).models.length = 1 := by
  have h := c2_single_slot_cache (fun _ => ⟨1, 2⟩) (fun _ => ⟨3, 4⟩)
    "facebook/sam-audio-base" "cuda" Precision.bf16 emptyCache
  exact ⟨h.2.1 rfl, (h.2.2 _ (List.cons_ne_nil _ _)).1⟩

/-- C4: for every waveform longer than the chunk size, the planner
(`torch.split` with the worker's `MAX_CHUNK_SAMPLES`) yields consecutive
segments that are all exactly `MAX_CHUNK_SAMPLES` long except possibly the
last (which is at most that long); concatenating the segments recovers the
waveform; every segment shorter than one second (`sample_rate` samples) is
discarded from processing and the kept plus discarded segment lengths sum
to the original waveform length; identical inputs give identical
boundaries. -/
theorem c4_chunk_plan_partition (sample_rate : Nat) (audio : List ℚ)
    (hsr : 0 < sample_rate)
    (hlen : MAX_CHUNK_SAMPLES sample_rate < audio.length) :
    (∀ c ∈ (torchSplit (MAX_CHUNK_SAMPLES sample_rate) audio).dropLast,
      c.length = MAX_CHUNK_SAMPLES sample_rate) ∧
    (∀ c ∈ torchSplit (MAX_CHUNK_SAMPLES sample_rate) audio,
      c.length ≤ MAX_CHUNK_SAMPLES sample_rate) ∧
    (torchSplit (MAX_CHUNK_SAMPLES sample_rate) audio).flatten = audio ∧
    ((kept_chunks sample_rate (torchSplit (MAX_CHUNK_SAMPLES sample_rate) audio)).map
        List.length).sum
      + ((discarded_chunks sample_rate
            (torchSplit (MAX_CHUNK_SAMPLES sample_rate) audio)).map List.length).sum
      = audio.length ∧
    (∀ audio2 : List ℚ, audio2 = audio →
      torchSplit (MAX_CHUNK_SAMPLES sample_rate) audio2
        = torchSplit (MAX_CHUNK_SAMPLES sample_rate) audio) := by
  have hm : 0 < MAX_CHUNK_SAMPLES sample_rate := by
    unfold MAX_CHUNK_SAMPLES; omega
  refine ⟨?_, ?_, ?_, ?_, ?_⟩
  · exact torchSplitAux_dropLast _ _ hm audio (le_refl _)
  · exact torchSplitAux_length_le _ _ hm audio (le_refl _)
  · exact torchSplitAux_flatten _ _ audio
  · rw [kept_discarded_sum, ← List.length_flatten]
    unfold torchSplit
    rw [torchSplitAux_flatten]
  · intro audio2 h
    rw [h]

/-- C4 witness: a 51-sample waveform at `sample_rate = 2` (chunk size 50)
splits into a 50-sample kept chunk and a 1-sample discarded chunk, and
50 + 1 = 51. -/
theorem c4_chunk_plan_partition_witness :
    ((kept_chunks 2 (torchSplit (MAX_CHUNK_SAMPLES 2)
        (List.replicate 51 (0 : ℚ)))).map List.length).sum
      + ((discarded_chunks 2 (torchSplit (MAX_CHUNK_SAMPLES 2)
            (List.replicate 51 (0 : ℚ)))).map List.length).sum
      = 51 :=
  (c4_chunk_plan_partition 2 (List.replicate 51 (0 : ℚ)) (by decide)
    (by decide)).2.2.2.1

/-- C10: within one execution the emitted progress percentages are
monotonically non-decreasing and stay within [0, 100]; in the chunked
branch the trace is exactly 5, 10, 30, then `30 + (50 * i) / total_chunks`
(rounded down) for each chunk index `i`, each of which is at least 30 and
strictly below 80, then 80 and 100. -/
theorem c10_progress_monotone (sample_rate : Nat) (audio : List ℚ)
    (hsr : 0 < sample_rate) :
    List.Pairwise (· ≤ ·) (progress_trace sample_rate audio) ∧
    (∀ p ∈ progress_trace sample_rate audio, p ≤ 100) ∧
    (MAX_CHUNK_SAMPLES sample_rate < audio.length →
      progress_trace sample_rate audio
        = [5, 10, 30]
          ++ (List.range
                ((torchSplit (MAX_CHUNK_SAMPLES sample_rate) audio).length)).map
              (chunk_progress
                ((torchSplit (MAX_CHUNK_SAMPLES sample_rate) audio).length))
          ++ [80, 100] ∧
      ∀ i, i < (torchSplit (MAX_CHUNK_SAMPLES sample_rate) audio).length →
        30 ≤ chunk_progress
              ((torchSplit (MAX_CHUNK_SAMPLES sample_rate) audio).length) i ∧
        chunk_progress
          ((torchSplit (MAX_CHUNK_SAMPLES sample_rate) audio).length) i < 80) := by
  by_cases h : MAX_CHUNK_SAMPLES sample_rate < audio.length
  · have htrace : progress_trace sample_rate audio
        = [5, 10, 30]
          ++ (List.range
                ((torchSplit (MAX_CHUNK_SAMPLES sample_rate) audio).length)).map
              (chunk_progress
                ((torchSplit (MAX_CHUNK_SAMPLES sample_rate) audio).length))
          ++ [80, 100] := by
      unfold progress_trace
      rw [if_pos h]
    set n := (torchSplit (MAX_CHUNK_SAMPLES sample_rate) audio).length with hn
    have hn1 : 1 ≤ n := by
      rcases haudio : audio with _ | ⟨a, l⟩
      · rw [haudio] at h; simp at h
      · have hne := torchSplitAux_ne_nil (MAX_CHUNK_SAMPLES sample_rate)
          (a :: l).length a l
        rw [hn, haudio]
        unfold torchSplit
        exact List.length_pos.2 hne
    have hcp_lo : ∀ i, 30 ≤ chunk_progress n i := fun i => Nat.le_add_right 30 _
    have hcp_hi : ∀ i, i < n → chunk_progress n i < 80 := by
      intro i hi
      unfold chunk_progress
      have hdiv : i * 50 / n < 50 := by
        rw [Nat.div_lt_iff_lt_mul (by omega)]
        omega
      omega
    refine ⟨?_, ?_, fun _ => ⟨htrace, fun i hi => ⟨hcp_lo i, hcp_hi i hi⟩⟩⟩
    · rw [htrace, List.pairwise_append]
      refine ⟨?_, by decide, ?_⟩
      · rw [List.pairwise_append]
        refine ⟨by decide, ?_, ?_⟩
        · refine (List.pairwise_lt_range n).map (chunk_progress n) ?_
          intro a b hab
          unfold chunk_progress
          exact Nat.add_le_add_left
            (Nat.div_le_div_right (by omega : a * 50 ≤ b * 50)) 30
        · intro a ha b hb
          obtain ⟨i, hi, rfl⟩ := List.mem_map.1 hb
          have ha30 : a ≤ 30 := by fin_cases ha <;> omega
          exact Nat.le_trans ha30 (hcp_lo i)
      · intro a ha b hb
        have h80 : 80 ≤ b := by fin_cases hb <;> omega
        rcases List.mem_append.1 ha with ha' | ha'
        · have ha30 : a ≤ 30 := by fin_cases ha' <;> omega
          omega
        · obtain ⟨i, hi, rfl⟩ := List.mem_map.1 ha'
          have := hcp_hi i (List.mem_range.1 hi)
          omega
    · rw [htrace]
      intro p hp
      rcases List.mem_append.1 hp with hp' | hp'
      · rcases List.mem_append.1 hp' with hp'' | hp''
        · fin_cases hp'' <;> omega
        · obtain ⟨i, hi, rfl⟩ := List.mem_map.1 hp''
          have := hcp_hi i (List.mem_range.1 hi)
          omega
      · fin_cases hp' <;> omega
  · have htrace : progress_trace sample_rate audio = [5, 10, 30, 50, 80, 100] := by
      unfold progress_trace
      rw [if_neg h]
    rw [htrace]
    exact ⟨by decide, by decide, fun hc => absurd hc h⟩

/-- C10 witness: a 30-sample waveform at `sample_rate = 1` takes the
chunked branch with two chunks and a monotone trace. -/
theorem c10_progress_monotone_witness :
    List.Pairwise (· ≤ ·) (progress_trace 1 (List.replicate 30 (0 : ℚ))) ∧
    30 ≤ chunk_progress 2 1 ∧ chunk_progress 2 1 < 80 := by
  have h := c10_progress_monotone 1 (List.replicate 30 (0 : ℚ)) (by decide)
  have h2 := (h.2.2 (by decide)).2 1 (by decide)
  exact ⟨h.1, h2⟩
